import Mathlib

/-!
Verification of the versioned fault-proof VM snapshot decoder of
`src/bin/opfp/src/cmd/util.rs`.

The decoder is embedded shallowly:

* A byte buffer is a `List Nat` (each entry one byte of the `Cursor<Vec<u8>>`).
* A fallible cursor computation is `M α = List Nat → Except DErr (α × List Nat) × List Nat`:
  the remaining bytes are the state, the second component of the result pair records
  the sizes of the heap allocations performed with `vec![0; n]` (used to analyse the
  pre-allocation behaviour of length-prefixed fields).
* `std::io` end-of-input failures (`read_u8`, `read_u32`, `read_u64`, `read_exact`)
  are `DErr.eof`.
* The `CannonVersion::try_from(self.version).unwrap()` call in
  `VersionedState::decode` panics on an unrecognized version byte; a panic unwinds
  past the `TryFrom<Vec<u8>>` error wrapping, so it is modelled as the distinguished
  outcome `DErr.panicInvalidVersion` which `VersionedState.try_from` surfaces as
  `TFResult.panicked` instead of `TFResult.err`.
* The `Box<dyn HasStep>` payload of `VersionedState` is modelled as the closed sum
  `StatePayload` of the three `HasStep` implementations present in the file.
-/

set_option maxRecDepth 20000

namespace OpfpUtil

/-- Decode-time failures: `UnexpectedEndOfInput` from the cursor, or the panic raised
by `.unwrap()` on `CannonVersion::try_from` for an unrecognized version byte. -/
inductive DErr where
  | eof
  | panicInvalidVersion (v : Nat)
deriving DecidableEq

deriving instance DecidableEq for Except

/-- Cursor computations: state = remaining bytes; alongside the result we log the
sizes of `vec![0; n]` allocations made while running. -/
def M (α : Type) : Type := List Nat → Except DErr (α × List Nat) × List Nat

/-- Embeds a pure value (no bytes consumed, no allocation). -/
def pureM {α : Type} (a : α) : M α := fun b => (Except.ok (a, b), [])

/-- Sequencing with `?`-propagation of errors, accumulating allocation logs. -/
def bindM {α β : Type} (m : M α) (f : α → M β) : M β := fun b =>
  match m b with
  | (Except.ok (a, r), l1) => ((f a r).1, l1 ++ (f a r).2)
  | (Except.error e, l1) => (Except.error e, l1)

/-- Raising a failure. -/
def throwM {α : Type} (e : DErr) : M α := fun _ => (Except.error e, [])

/-- Models `cursor.read_u8()`. -/
def readU8 : M Nat := fun b =>
  match b with
  | [] => (Except.error DErr.eof, [])
  | x :: r => (Except.ok (x, r), [])

/-- Models `cursor.read_exact(&mut buf)` for a caller-sized buffer of `n` bytes. -/
def readExact (n : Nat) : M (List Nat) := fun b =>
  if n ≤ b.length then (Except.ok (b.take n, b.drop n), []) else (Except.error DErr.eof, [])

/-- Big-endian value of a byte run. -/
def beVal (l : List Nat) : Nat := l.foldl (fun acc x => acc * 256 + x) 0

/-- Models `cursor.read_u32::<BigEndian>()`. -/
def readU32 : M Nat := bindM (readExact 4) (fun c => pureM (beVal c))

/-- Models `cursor.read_u64::<BigEndian>()`. -/
def readU64 : M Nat := bindM (readExact 8) (fun c => pureM (beVal c))

/-- Models `vec![0; n]`: allocates a zero buffer of size `n` and logs the allocation. -/
def alloc (n : Nat) : M (List Nat) := fun b => (Except.ok (List.replicate n 0, b), [n])

/-- The struct `Memory { pages: HashMap<u32, [u8; 4096]> }`; the hash map is modelled as an
association list with `insertPage`/`lookupPage` giving the map view. -/
structure Memory where
  pages : List (Nat × List Nat)
deriving DecidableEq

/-- Models `Memory::default()`: empty page map. -/
def Memory.default : Memory := ⟨[]⟩

/-- Models `HashMap::insert`: overwrites the payload of an existing key, else adds the key. -/
def insertPage : List (Nat × List Nat) → Nat → List Nat → List (Nat × List Nat)
  | [], k, v => [(k, v)]
  | (k1, v1) :: rest, k, v =>
      if k1 = k then (k, v) :: rest else (k1, v1) :: insertPage rest k v

/-- Models `HashMap` lookup on the association-list model. -/
def lookupPage : List (Nat × List Nat) → Nat → Option (List Nat)
  | [], _ => none
  | (k1, v1) :: rest, k => if k1 = k then some v1 else lookupPage rest k

/-- The struct `CpuScalars` (32-bit variant). -/
structure CpuScalars where
  pc : Nat
  next_pc : Nat
  lo : Nat
  hi : Nat
deriving DecidableEq

def CpuScalars.default : CpuScalars := ⟨0, 0, 0, 0⟩

/-- The struct `CpuScalars64`. -/
structure CpuScalars64 where
  pc : Nat
  next_pc : Nat
  lo : Nat
  hi : Nat
deriving DecidableEq

def CpuScalars64.default : CpuScalars64 := ⟨0, 0, 0, 0⟩

/-- The struct `ThreadState` (32-bit thread context; `registers: [u32; 32]` as a list). -/
structure ThreadState where
  thread_id : Nat
  exit_code : Nat
  exited : Bool
  cpu : CpuScalars
  registers : List Nat
deriving DecidableEq

/-- The struct `ThreadState64`. -/
structure ThreadState64 where
  thread_id : Nat
  exit_code : Nat
  exited : Bool
  cpu : CpuScalars64
  registers : List Nat
deriving DecidableEq

/-- The struct `SingleThreadedFPVMState` (field names from the source, typo included). -/
structure SingleThreadedFPVMState where
  memory : Memory
  preimage_key : List Nat
  perimage_offset : Nat
  cpu : CpuScalars
  heap : Nat
  exit_code : Nat
  exited : Bool
  step : Nat
  registers : List Nat
  last_hint : List Nat
deriving DecidableEq

/-- Models `SingleThreadedFPVMState::default()`. -/
def SingleThreadedFPVMState.default : SingleThreadedFPVMState :=
  { memory := Memory.default
    preimage_key := List.replicate 32 0
    perimage_offset := 0
    cpu := CpuScalars.default
    heap := 0
    exit_code := 0
    exited := false
    step := 0
    registers := List.replicate 32 0
    last_hint := [] }

/-- The struct `MultiThreadedV2State`. -/
structure MultiThreadedV2State where
  memory : Memory
  preimage_key : List Nat
  perimage_offset : Nat
  heap : Nat
  ll_reservation_status : Nat
  ll_address : Nat
  ll_owner_thread : Nat
  exit_code : Nat
  exited : Bool
  step : Nat
  steps_since_last_context_switch : Nat
  traverse_right : Bool
  left_thread_stack : List ThreadState
  right_thread_stack : List ThreadState
  next_thread_id : Nat
  last_hint : List Nat
deriving DecidableEq

/-- Models `MultiThreadedV2State::default()`. -/
def MultiThreadedV2State.default : MultiThreadedV2State :=
  { memory := Memory.default
    preimage_key := List.replicate 32 0
    perimage_offset := 0
    heap := 0
    ll_reservation_status := 0
    ll_address := 0
    ll_owner_thread := 0
    exit_code := 0
    exited := false
    step := 0
    steps_since_last_context_switch := 0
    traverse_right := false
    left_thread_stack := []
    right_thread_stack := []
    next_thread_id := 0
    last_hint := [] }

/-- The struct `MultiThreaded64V3`. -/
structure MultiThreaded64V3 where
  memory : Memory
  preimage_key : List Nat
  perimage_offset : Nat
  heap : Nat
  ll_reservation_status : Nat
  ll_address : Nat
  ll_owner_thread : Nat
  exit_code : Nat
  exited : Bool
  step : Nat
  steps_since_last_context_switch : Nat
  traverse_right : Bool
  left_thread_stack : List ThreadState64
  right_thread_stack : List ThreadState64
  next_thread_id : Nat
  last_hint : List Nat
deriving DecidableEq

/-- Models `MultiThreaded64V3.default()`. -/
def MultiThreaded64V3.default : MultiThreaded64V3 :=
  { memory := Memory.default
    preimage_key := List.replicate 32 0
    perimage_offset := 0
    heap := 0
    ll_reservation_status := 0
    ll_address := 0
    ll_owner_thread := 0
    exit_code := 0
    exited := false
    step := 0
    steps_since_last_context_switch := 0
    traverse_right := false
    left_thread_stack := []
    right_thread_stack := []
    next_thread_id := 0
    last_hint := [] }

/-- The page-reading loop of `Memory::decode`: `n` repetitions of
(u32 page index, 4096-byte payload), each inserted into the map. -/
def decodePages : Nat → Memory → M Memory
  | 0, m => pureM m
  | n + 1, m =>
      bindM readU32 (fun page_index =>
      bindM (readExact 4096) (fun data =>
      decodePages n ⟨insertPage m.pages page_index data⟩))

/-- Models `Memory::decode`: u32 page count; a count `> 0` replaces the map with a fresh
empty one before the loop, a count of `0` leaves the prior map untouched. -/
def Memory.decode (self : Memory) : M Memory :=
  bindM readU32 (fun page_count =>
  decodePages page_count (if page_count > 0 then ⟨[]⟩ else self))

/-- The register loop `for i in 0..32 { registers[i] = read_u32()? }` (32-bit). -/
def decodeRegisters : Nat → M (List Nat)
  | 0 => pureM []
  | n + 1 =>
      bindM readU32 (fun r =>
      bindM (decodeRegisters n) (fun rest =>
      pureM (r :: rest)))

/-- The register loop (64-bit). -/
def decodeRegisters64 : Nat → M (List Nat)
  | 0 => pureM []
  | n + 1 =>
      bindM readU64 (fun r =>
      bindM (decodeRegisters64 n) (fun rest =>
      pureM (r :: rest)))

/-- Models `ThreadState::decode`. -/
def ThreadState.decode : M ThreadState :=
  bindM readU32 (fun thread_id =>
  bindM readU8 (fun exit_code =>
  bindM readU8 (fun exited =>
  bindM readU32 (fun pc =>
  bindM readU32 (fun next_pc =>
  bindM readU32 (fun lo =>
  bindM readU32 (fun hi =>
  bindM (decodeRegisters 32) (fun registers =>
  pureM { thread_id := thread_id
          exit_code := exit_code
          exited := exited != 0
          cpu := { pc := pc, next_pc := next_pc, lo := lo, hi := hi }
          registers := registers }))))))))

/-- Models `ThreadState64::decode`. -/
def ThreadState64.decode : M ThreadState64 :=
  bindM readU64 (fun thread_id =>
  bindM readU8 (fun exit_code =>
  bindM readU8 (fun exited =>
  bindM readU64 (fun pc =>
  bindM readU64 (fun next_pc =>
  bindM readU64 (fun lo =>
  bindM readU64 (fun hi =>
  bindM (decodeRegisters64 32) (fun registers =>
  pureM { thread_id := thread_id
          exit_code := exit_code
          exited := exited != 0
          cpu := { pc := pc, next_pc := next_pc, lo := lo, hi := hi }
          registers := registers }))))))))

/-- One thread-stack loop of `MultiThreadedV2State::decode`: decode `n` records,
pushing each onto the vector in decode order. -/
def decodeThreadStack : Nat → M (List ThreadState)
  | 0 => pureM []
  | n + 1 =>
      bindM ThreadState.decode (fun thread_state =>
      bindM (decodeThreadStack n) (fun rest =>
      pureM (thread_state :: rest)))

/-- One thread-stack loop of `MultiThreaded64V3::decode`. -/
def decodeThreadStack64 : Nat → M (List ThreadState64)
  | 0 => pureM []
  | n + 1 =>
      bindM ThreadState64.decode (fun thread_state =>
      bindM (decodeThreadStack64 n) (fun rest =>
      pureM (thread_state :: rest)))

/-- The trailing hint blob: u32 length; if positive, `vec![0; len]` is allocated and
`read_exact` fills it; if zero, `last_hint` keeps its prior value `d`. -/
def readLastHint (d : List Nat) (last_hint_len : Nat) : M (List Nat) :=
  if last_hint_len > 0 then
    bindM (alloc last_hint_len) (fun _slice => readExact last_hint_len)
  else pureM d

/-- Models `SingleThreadedFPVMState::decode` (on `&mut self`, all fields overwritten except
`last_hint` when the length prefix is zero). -/
def SingleThreadedFPVMState.decode (self : SingleThreadedFPVMState) :
    M SingleThreadedFPVMState :=
  bindM (self.memory.decode) (fun memory =>
  bindM (readExact 32) (fun preimage_key =>
  bindM readU32 (fun perimage_offset =>
  bindM readU32 (fun pc =>
  bindM readU32 (fun next_pc =>
  bindM readU32 (fun lo =>
  bindM readU32 (fun hi =>
  bindM readU32 (fun heap =>
  bindM readU8 (fun exit_code =>
  bindM readU8 (fun exited =>
  bindM readU64 (fun step =>
  bindM (decodeRegisters 32) (fun registers =>
  bindM readU32 (fun last_hint_len =>
  bindM (readLastHint self.last_hint last_hint_len) (fun last_hint =>
  pureM { memory := memory
          preimage_key := preimage_key
          perimage_offset := perimage_offset
          cpu := { pc := pc, next_pc := next_pc, lo := lo, hi := hi }
          heap := heap
          exit_code := exit_code
          exited := exited != 0
          step := step
          registers := registers
          last_hint := last_hint }))))))))))))))

/-- Models `MultiThreadedV2State::decode`. -/
def MultiThreadedV2State.decode (self : MultiThreadedV2State) : M MultiThreadedV2State :=
  bindM (self.memory.decode) (fun memory =>
  bindM (readExact 32) (fun preimage_key =>
  bindM readU32 (fun perimage_offset =>
  bindM readU32 (fun heap =>
  bindM readU8 (fun ll_reservation_status =>
  bindM readU32 (fun ll_address =>
  bindM readU32 (fun ll_owner_thread =>
  bindM readU8 (fun exit_code =>
  bindM readU8 (fun exited =>
  bindM readU64 (fun step =>
  bindM readU64 (fun steps_since_last_context_switch =>
  bindM readU8 (fun traverse_right =>
  bindM readU32 (fun next_thread_id =>
  bindM readU32 (fun left_thread_stack_size =>
  bindM (decodeThreadStack left_thread_stack_size) (fun left_thread_stack =>
  bindM readU32 (fun right_thread_stack_size =>
  bindM (decodeThreadStack right_thread_stack_size) (fun right_thread_stack =>
  bindM readU32 (fun last_hint_len =>
  bindM (readLastHint self.last_hint last_hint_len) (fun last_hint =>
  pureM { memory := memory
          preimage_key := preimage_key
          perimage_offset := perimage_offset
          heap := heap
          ll_reservation_status := ll_reservation_status
          ll_address := ll_address
          ll_owner_thread := ll_owner_thread
          exit_code := exit_code
          exited := exited != 0
          step := step
          steps_since_last_context_switch := steps_since_last_context_switch
          traverse_right := traverse_right != 0
          left_thread_stack := left_thread_stack
          right_thread_stack := right_thread_stack
          next_thread_id := next_thread_id
          last_hint := last_hint })))))))))))))))))))

/-- Models `MultiThreaded64V3::decode`. -/
def MultiThreaded64V3.decode (self : MultiThreaded64V3) : M MultiThreaded64V3 :=
  bindM (self.memory.decode) (fun memory =>
  bindM (readExact 32) (fun preimage_key =>
  bindM readU64 (fun perimage_offset =>
  bindM readU64 (fun heap =>
  bindM readU8 (fun ll_reservation_status =>
  bindM readU64 (fun ll_address =>
  bindM readU64 (fun ll_owner_thread =>
  bindM readU8 (fun exit_code =>
  bindM readU8 (fun exited =>
  bindM readU64 (fun step =>
  bindM readU64 (fun steps_since_last_context_switch =>
  bindM readU8 (fun traverse_right =>
  bindM readU64 (fun next_thread_id =>
  bindM readU64 (fun left_thread_stack_size =>
  bindM (decodeThreadStack64 left_thread_stack_size) (fun left_thread_stack =>
  bindM readU64 (fun right_thread_stack_size =>
  bindM (decodeThreadStack64 right_thread_stack_size) (fun right_thread_stack =>
  bindM readU32 (fun last_hint_len =>
  bindM (readLastHint self.last_hint last_hint_len) (fun last_hint =>
  pureM { memory := memory
          preimage_key := preimage_key
          perimage_offset := perimage_offset
          heap := heap
          ll_reservation_status := ll_reservation_status
          ll_address := ll_address
          ll_owner_thread := ll_owner_thread
          exit_code := exit_code
          exited := exited != 0
          step := step
          steps_since_last_context_switch := steps_since_last_context_switch
          traverse_right := traverse_right != 0
          left_thread_stack := left_thread_stack
          right_thread_stack := right_thread_stack
          next_thread_id := next_thread_id
          last_hint := last_hint })))))))))))))))))))

/-- The enum `CannonVersion`. -/
inductive CannonVersion where
  | SingleThreaded2
  | MultiThreadedV2
  | MultiThreaded64V3
deriving DecidableEq

/-- Models `impl TryFrom<u8> for CannonVersion`; the error string
`"invalid cannon state version: {v}"` is modelled by the byte `v` it carries. -/
def CannonVersion.try_from (v : Nat) : Except Nat CannonVersion :=
  match v with
  | 2 => Except.ok CannonVersion.SingleThreaded2
  | 5 => Except.ok CannonVersion.MultiThreadedV2
  | 6 => Except.ok CannonVersion.MultiThreaded64V3
  | _ => Except.error v

/-- The closed sum of the three `HasStep` implementations held in
`VersionedState.state : Box<dyn HasStep>`. -/
inductive StatePayload where
  | single (s : SingleThreadedFPVMState)
  | multiV2 (s : MultiThreadedV2State)
  | multi64 (s : MultiThreaded64V3)
deriving DecidableEq

/-- The uniform `HasStep::step` accessor. -/
def StatePayload.step : StatePayload → Nat
  | StatePayload.single s => s.step
  | StatePayload.multiV2 s => s.step
  | StatePayload.multi64 s => s.step

/-- The struct `VersionedState`. -/
structure VersionedState where
  version : Nat
  state : StatePayload
deriving DecidableEq

/-- Models `impl Decodable for VersionedState`: read the version byte, then
`CannonVersion::try_from(version).unwrap()` — the `.unwrap()` panics on an
unrecognized byte — then run the matching variant decoder on a default struct. -/
def VersionedState.decode : M VersionedState :=
  bindM readU8 (fun version =>
  match CannonVersion.try_from version with
  | Except.error e => throwM (DErr.panicInvalidVersion e)
  | Except.ok CannonVersion.SingleThreaded2 =>
      bindM (SingleThreadedFPVMState.default.decode) (fun s =>
      pureM { version := version, state := StatePayload.single s })
  | Except.ok CannonVersion.MultiThreadedV2 =>
      bindM (MultiThreadedV2State.default.decode) (fun s =>
      pureM { version := version, state := StatePayload.multiV2 s })
  | Except.ok CannonVersion.MultiThreaded64V3 =>
      bindM (MultiThreaded64V3.default.decode) (fun s =>
      pureM { version := version, state := StatePayload.multi64 s }))

/-- Outcome of `TryFrom<Vec<u8>> for VersionedState` as observed by its caller:
`ok` on success, `err` for a returned `Err` (the string wraps the inner error),
`panicked` when the decode panics and never returns. -/
inductive TFResult where
  | ok (v : VersionedState)
  | err (e : DErr)
  | panicked (version : Nat)
deriving DecidableEq

/-- Models `impl TryFrom<Vec<u8>> for VersionedState`: run the decoder over a cursor on the
buffer; a leftover suffix is ignored; `Err` results are wrapped into the
`"invalid versioned state encoding: {err}"` string (modelled by `TFResult.err`
carrying the inner error); a panic propagates as a panic. -/
def VersionedState.try_from (buffer : List Nat) : TFResult :=
  match (VersionedState.decode buffer).1 with
  | Except.ok (v, _rest) => TFResult.ok v
  | Except.error DErr.eof => TFResult.err DErr.eof
  | Except.error (DErr.panicInvalidVersion n) => TFResult.panicked n

/-- Relation `RunsTo m c a`: the computation `m` consumes exactly the bytes `c` and produces
`a`, for every continuation of the buffer. -/
def RunsTo {α : Type} (m : M α) (c : List Nat) (a : α) : Prop :=
  ∀ t, (m (c ++ t)).1 = Except.ok (a, t)

/-- Big-endian 4-byte encoding of a value below `2^32`. -/
def be32 (n : Nat) : List Nat :=
  [n / 16777216 % 256, n / 65536 % 256, n / 256 % 256, n % 256]

/-- Big-endian 8-byte encoding of a value below `2^64`. -/
def be64 (n : Nat) : List Nat :=
  [n / 72057594037927936 % 256, n / 281474976710656 % 256, n / 1099511627776 % 256,
   n / 4294967296 % 256, n / 16777216 % 256, n / 65536 % 256, n / 256 % 256, n % 256]

/-- The 32-bit values of consecutive 4-byte big-endian chunks. -/
def regVals : Nat → List Nat → List Nat
  | 0, _ => []
  | k + 1, c => beVal (c.take 4) :: regVals k (c.drop 4)

/-- The 64-bit values of consecutive 8-byte big-endian chunks. -/
def regVals64 : Nat → List Nat → List Nat
  | 0, _ => []
  | k + 1, c => beVal (c.take 8) :: regVals64 k (c.drop 8)

/-- Folding a record list into the page map by repeated `HashMap::insert`. -/
def insertPages (l : List (Nat × List Nat)) (pairs : List (Nat × List Nat)) :
    List (Nat × List Nat) :=
  pairs.foldl (fun acc p => insertPage acc p.1 p.2) l

/-- Property `Safe m`: every successful run consumes a definite prefix `c` of the buffer,
its result does not depend on the bytes after `c`, and running on any strict
prefix of `c` fails with end-of-input. -/
def Safe {α : Type} (m : M α) : Prop :=
  ∀ b a r, (m b).1 = Except.ok (a, r) →
    ∃ c, b = c ++ r ∧ (∀ t, (m (c ++ t)).1 = Except.ok (a, t)) ∧
      (∀ k, k < c.length → (m (c.take k)).1 = Except.error DErr.eof)

/-- Property `AllocSafe m`: any logged allocation either fits inside the input buffer or
belongs to a run that fails with end-of-input. -/
def AllocSafe {α : Type} (m : M α) : Prop :=
  ∀ b n, n ∈ (m b).2 → n ≤ b.length ∨ (m b).1 = Except.error DErr.eof

/-- Property `NoAlloc m`: the computation never performs a `vec![0; n]` allocation. -/
def NoAlloc {α : Type} (m : M α) : Prop := ∀ b, (m b).2 = []

def SA {α : Type} (m : M α) : Prop := Safe m ∧ AllocSafe m

/-- A minimal well-formed SingleThreaded2 snapshot: version byte 2, page count 0,
194 zero bytes of fixed-width fields, hint length 0. -/
def c2buf : List Nat := 2 :: ([0, 0, 0, 0] ++ (List.replicate 194 0 ++ [0, 0, 0, 0]))

/-- The state `c2buf` decodes to (every field at its default value). -/
def c2val : VersionedState := ⟨2, StatePayload.single SingleThreadedFPVMState.default⟩

/-- C3 counterexample: a 203-byte single-threaded buffer whose trailing hint-length
field is `0xFFFFFFFF` makes the decoder allocate a zero buffer of 4294967295 bytes
(far beyond the 198 remaining bytes are able to validate) before the length is
checked against the remaining input; the decode then fails with end-of-input. -/
def c3buf : List Nat := 2 :: ([0, 0, 0, 0] ++ (List.replicate 194 0 ++ [255, 255, 255, 255]))

/-- The payload of the last record carrying index `i`, if any: later records
overwrite earlier ones. -/
def lastPayload : List (Nat × List Nat) → Nat → Option (List Nat)
  | [], _ => none
  | p :: rest, i =>
      match lastPayload rest i with
      | some v => some v
      | none => if p.1 = i then some p.2 else none

/-- Two records with the same index 1; the second (all-sevens) payload must win. -/
def c9pairs : List (Nat × List Nat) :=
  [(1, List.replicate 4096 0), (1, List.replicate 4096 7)]

/-- A 150-byte ThreadState record (all fields zero). -/
def c7chunk : List Nat :=
  [0, 0, 0, 0] ++ ([0] ++ ([0] ++ ([0, 0, 0, 0] ++ ([0, 0, 0, 0] ++
    ([0, 0, 0, 0] ++ ([0, 0, 0, 0] ++ List.replicate 128 0))))))

/-- The ThreadState that `c7chunk` encodes. -/
def c7ts : ThreadState :=
  { thread_id := 0, exit_code := 0, exited := false, cpu := ⟨0, 0, 0, 0⟩,
    registers := regVals 32 (List.replicate 128 0) }

/-- A 298-byte ThreadState64 record (all fields zero). -/
def c7chunk64 : List Nat :=
  [0, 0, 0, 0, 0, 0, 0, 0] ++ ([0] ++ ([0] ++ ([0, 0, 0, 0, 0, 0, 0, 0] ++
    ([0, 0, 0, 0, 0, 0, 0, 0] ++ ([0, 0, 0, 0, 0, 0, 0, 0] ++
    ([0, 0, 0, 0, 0, 0, 0, 0] ++ List.replicate 256 0))))))

/-- The ThreadState64 that `c7chunk64` encodes. -/
def c7ts64 : ThreadState64 :=
  { thread_id := 0, exit_code := 0, exited := false, cpu := ⟨0, 0, 0, 0⟩,
    registers := regVals64 32 (List.replicate 256 0) }

/-- The two page records of the fixture: page 5 all zero, page 123 with byte 2 set
to 1. -/
def pairsM : List (Nat × List Nat) :=
  [(5, List.replicate 4096 0), (123, [0, 0, 1] ++ List.replicate 4093 0)]

/-- The 128 register bytes of the fixture (7 nonzero big-endian words, then 25 zero
words). -/
def regsBytes : List Nat :=
  [222, 173, 190, 239] ++ ([222, 173, 190, 239] ++ ([0, 192, 255, 238] ++
  ([190, 239, 186, 190] ++ ([222, 173, 192, 222] ++ ([11, 173, 192, 222] ++
  ([222, 173, 222, 173] ++ List.replicate 100 0))))))

/-- The bytes of the `test_decode_versioned_state` fixture (`test_data`), written as
the concatenation of its fields; equal byte-for-byte to the 8408-byte hex literal. -/
def testData : List Nat :=
  [2] ++
  (([0, 0, 0, 2] ++
    (([0, 0, 0, 5] ++ List.replicate 4096 0) ++
     (([0, 0, 0, 123] ++ ([0, 0, 1] ++ List.replicate 4093 0)) ++ []))) ++
   (([255] ++ List.replicate 31 0) ++
    ([0, 0, 0, 5] ++
     ([0, 0, 0, 255] ++
      ([0, 0, 1, 3] ++
       ([0, 0, 190, 239] ++
        ([0, 0, 186, 190] ++
         ([0, 192, 255, 238] ++
          ([1] ++
           ([1] ++
            ([0, 0, 0, 0, 222, 173, 190, 239] ++
             (regsBytes ++ ([0, 0, 0, 5] ++ [1, 2, 3, 4, 5])))))))))))))

/-- The expected decode result (`correct_state` of the Rust test). -/
def correctState : SingleThreadedFPVMState :=
  { memory := ⟨[(5, List.replicate 4096 0), (123, [0, 0, 1] ++ List.replicate 4093 0)]⟩
    preimage_key := [255] ++ List.replicate 31 0
    perimage_offset := 5
    cpu := { pc := 255, next_pc := 259, lo := 48879, hi := 47806 }
    heap := 12648430
    exit_code := 1
    exited := true
    step := 3735928559
    registers := [3735928559, 3735928559, 12648430, 3203381950, 3735929054,
      195936478, 3735936685, 0, 0, 0, 0, 0, 0, 0, 0, 0, 0, 0, 0, 0, 0, 0, 0, 0,
      0, 0, 0, 0, 0, 0, 0, 0]
    last_hint := [1, 2, 3, 4, 5] }

theorem runsTo_pure {α : Type} (a : α) : RunsTo (pureM a) [] a := by
  intro t; rfl

theorem runsTo_bind {α β : Type} {m : M α} {f : α → M β} {c d : List Nat} {a : α}
    {v : β} (hm : RunsTo m c a) (hf : RunsTo (f a) d v) :
    RunsTo (bindM m f) (c ++ d) v := by
  intro t
  rw [List.append_assoc]
  have h1 := hm (d ++ t)
  unfold bindM
  rcases hp : m (c ++ (d ++ t)) with ⟨res, l⟩
  rw [hp] at h1
  simp only at h1
  subst h1
  simpa using hf t

theorem runsTo_bind_pure {α β : Type} {m : M α} {g : α → β} {c : List Nat} {a : α}
    (hm : RunsTo m c a) : RunsTo (bindM m (fun x => pureM (g x))) c (g a) := by
  have h := runsTo_bind (f := fun x => pureM (g x)) hm (runsTo_pure (g a))
  simpa using h

theorem runsTo_readU8 (x : Nat) : RunsTo readU8 [x] x := by
  intro t; rfl

theorem runsTo_readExact {n : Nat} {c : List Nat} (h : c.length = n) :
    RunsTo (readExact n) c c := by
  intro t
  subst h
  unfold readExact
  rw [if_pos (by simp)]
  rw [List.take_left, List.drop_left]

theorem runsTo_readU32 {c : List Nat} (h : c.length = 4) :
    RunsTo readU32 c (beVal c) :=
  runsTo_bind_pure (runsTo_readExact h)

theorem runsTo_readU64 {c : List Nat} (h : c.length = 8) :
    RunsTo readU64 c (beVal c) :=
  runsTo_bind_pure (runsTo_readExact h)

theorem runsTo_alloc (n : Nat) : RunsTo (alloc n) [] (List.replicate n 0) := by
  intro t; rfl

theorem beVal_be32 {n : Nat} (h : n < 4294967296) : beVal (be32 n) = n := by
  simp only [beVal, be32, List.foldl]
  omega

theorem beVal_be64 {n : Nat} (h : n < 18446744073709551616) : beVal (be64 n) = n := by
  simp only [beVal, be64, List.foldl]
  omega

theorem runsTo_be32 {n : Nat} (h : n < 4294967296) : RunsTo readU32 (be32 n) n := by
  have h4 : (be32 n).length = 4 := rfl
  have := runsTo_readU32 h4
  rwa [beVal_be32 h] at this

theorem runsTo_be64 {n : Nat} (h : n < 18446744073709551616) :
    RunsTo readU64 (be64 n) n := by
  have h8 : (be64 n).length = 8 := rfl
  have := runsTo_readU64 h8
  rwa [beVal_be64 h] at this

theorem runsTo_decodeRegisters :
    ∀ (k : Nat) (c : List Nat), c.length = 4 * k →
      RunsTo (decodeRegisters k) c (regVals k c) := by
  intro k
  induction k with
  | zero =>
    intro c hc
    have : c = [] := List.length_eq_zero.mp (by omega)
    subst this
    exact runsTo_pure []
  | succ n ih =>
    intro c hc
    have h4 : (c.take 4).length = 4 := by simp only [List.length_take]; omega
    have hd : (c.drop 4).length = 4 * n := by simp only [List.length_drop]; omega
    have h := runsTo_bind
      (f := fun r => bindM (decodeRegisters n) (fun rest => pureM (r :: rest)))
      (runsTo_readU32 h4)
      (runsTo_bind_pure (g := fun rest => beVal (c.take 4) :: rest) (ih (c.drop 4) hd))
    rw [List.take_append_drop] at h
    exact h

theorem runsTo_decodeRegisters64 :
    ∀ (k : Nat) (c : List Nat), c.length = 8 * k →
      RunsTo (decodeRegisters64 k) c (regVals64 k c) := by
  intro k
  induction k with
  | zero =>
    intro c hc
    have : c = [] := List.length_eq_zero.mp (by omega)
    subst this
    exact runsTo_pure []
  | succ n ih =>
    intro c hc
    have h8 : (c.take 8).length = 8 := by simp only [List.length_take]; omega
    have hd : (c.drop 8).length = 8 * n := by simp only [List.length_drop]; omega
    have h := runsTo_bind
      (f := fun r => bindM (decodeRegisters64 n) (fun rest => pureM (r :: rest)))
      (runsTo_readU64 h8)
      (runsTo_bind_pure (g := fun rest => beVal (c.take 8) :: rest) (ih (c.drop 8) hd))
    rw [List.take_append_drop] at h
    exact h

theorem runsTo_decodePages :
    ∀ (pairs : List (Nat × List Nat)) (m : Memory),
      (∀ p ∈ pairs, p.1 < 4294967296 ∧ p.2.length = 4096) →
      RunsTo (decodePages pairs.length m)
        ((pairs.map (fun p => be32 p.1 ++ p.2)).flatten)
        ⟨insertPages m.pages pairs⟩ := by
  intro pairs
  induction pairs with
  | nil =>
    intro m _
    exact runsTo_pure m
  | cons p rest ih =>
    intro m hp
    have hidx : p.1 < 4294967296 := (hp p (by simp)).1
    have hlen : p.2.length = 4096 := (hp p (by simp)).2
    have hrest : ∀ q ∈ rest, q.1 < 4294967296 ∧ q.2.length = 4096 := by
      intro q hq; exact hp q (by simp [hq])
    have h := runsTo_bind
      (f := fun page_index => bindM (readExact 4096) (fun data =>
        decodePages rest.length ⟨insertPage m.pages page_index data⟩))
      (runsTo_be32 hidx)
      (runsTo_bind
        (f := fun data => decodePages rest.length ⟨insertPage m.pages p.1 data⟩)
        (runsTo_readExact hlen)
        (ih ⟨insertPage m.pages p.1 p.2⟩ hrest))
    simpa [insertPages, List.append_assoc] using h

theorem runsTo_memory_decode {m : Memory} {pairs : List (Nat × List Nat)}
    (hp : ∀ p ∈ pairs, p.1 < 4294967296 ∧ p.2.length = 4096)
    (hn : pairs.length < 4294967296) :
    RunsTo (Memory.decode m)
      (be32 pairs.length ++ (pairs.map (fun p => be32 p.1 ++ p.2)).flatten)
      (if pairs.length > 0 then ⟨insertPages [] pairs⟩ else m) := by
  unfold Memory.decode
  refine runsTo_bind (runsTo_be32 hn) ?_
  by_cases h0 : pairs.length > 0
  · rw [if_pos h0, if_pos h0]
    exact runsTo_decodePages pairs ⟨[]⟩ hp
  · rw [if_neg h0, if_neg h0]
    have : pairs = [] := List.length_eq_zero.mp (by omega)
    subst this
    exact runsTo_pure m

theorem runsTo_readLastHint {d hint : List Nat} {hlen : Nat} (h : hint.length = hlen) :
    RunsTo (readLastHint d hlen) hint (if hlen > 0 then hint else d) := by
  unfold readLastHint
  by_cases hp : hlen > 0
  · rw [if_pos hp, if_pos hp]
    have hb := runsTo_bind (c := []) (f := fun x => readExact hlen)
      (runsTo_alloc hlen) (runsTo_readExact h)
    simpa using hb
  · rw [if_neg hp, if_neg hp]
    have h0 : hint = [] := List.length_eq_zero.mp (by omega)
    subst h0
    exact runsTo_pure d

theorem runsTo_decodeThreadStack :
    ∀ (pairs : List (List Nat × ThreadState)),
      (∀ p ∈ pairs, RunsTo ThreadState.decode p.1 p.2) →
      RunsTo (decodeThreadStack pairs.length)
        ((pairs.map Prod.fst).flatten) (pairs.map Prod.snd) := by
  intro pairs
  induction pairs with
  | nil =>
    intro _
    exact runsTo_pure []
  | cons p rest ih =>
    intro hp
    have h := runsTo_bind
      (f := fun thread_state => bindM (decodeThreadStack rest.length)
        (fun rest2 => pureM (thread_state :: rest2)))
      (hp p (by simp))
      (runsTo_bind_pure (g := fun l => p.2 :: l) (ih (fun q hq => hp q (by simp [hq]))))
    simpa using h

theorem runsTo_decodeThreadStack64 :
    ∀ (pairs : List (List Nat × ThreadState64)),
      (∀ p ∈ pairs, RunsTo ThreadState64.decode p.1 p.2) →
      RunsTo (decodeThreadStack64 pairs.length)
        ((pairs.map Prod.fst).flatten) (pairs.map Prod.snd) := by
  intro pairs
  induction pairs with
  | nil =>
    intro _
    exact runsTo_pure []
  | cons p rest ih =>
    intro hp
    have h := runsTo_bind
      (f := fun thread_state => bindM (decodeThreadStack64 rest.length)
        (fun rest2 => pureM (thread_state :: rest2)))
      (hp p (by simp))
      (runsTo_bind_pure (g := fun l => p.2 :: l) (ih (fun q hq => hp q (by simp [hq]))))
    simpa using h

theorem runsTo_threadState_parts {a4 p4 n4 l4 g4 regs : List Nat} {e x : Nat}
    (ha : a4.length = 4) (hp : p4.length = 4) (hn : n4.length = 4)
    (hl : l4.length = 4) (hg : g4.length = 4) (hr : regs.length = 128) :
    RunsTo ThreadState.decode
      (a4 ++ ([e] ++ ([x] ++ (p4 ++ (n4 ++ (l4 ++ (g4 ++ (regs))))))))
      { thread_id := beVal a4
        exit_code := e
        exited := x != 0
        cpu := { pc := beVal p4, next_pc := beVal n4, lo := beVal l4, hi := beVal g4 }
        registers := regVals 32 regs } := by
  unfold ThreadState.decode
  refine runsTo_bind (runsTo_readU32 ha) ?_
  refine runsTo_bind (runsTo_readU8 e) ?_
  refine runsTo_bind (runsTo_readU8 x) ?_
  refine runsTo_bind (runsTo_readU32 hp) ?_
  refine runsTo_bind (runsTo_readU32 hn) ?_
  refine runsTo_bind (runsTo_readU32 hl) ?_
  refine runsTo_bind (runsTo_readU32 hg) ?_
  exact runsTo_bind_pure (runsTo_decodeRegisters 32 regs hr)

theorem runsTo_threadState64_parts {a8 p8 n8 l8 g8 regs : List Nat} {e x : Nat}
    (ha : a8.length = 8) (hp : p8.length = 8) (hn : n8.length = 8)
    (hl : l8.length = 8) (hg : g8.length = 8) (hr : regs.length = 256) :
    RunsTo ThreadState64.decode
      (a8 ++ ([e] ++ ([x] ++ (p8 ++ (n8 ++ (l8 ++ (g8 ++ (regs))))))))
      { thread_id := beVal a8
        exit_code := e
        exited := x != 0
        cpu := { pc := beVal p8, next_pc := beVal n8, lo := beVal l8, hi := beVal g8 }
        registers := regVals64 32 regs } := by
  unfold ThreadState64.decode
  refine runsTo_bind (runsTo_readU64 ha) ?_
  refine runsTo_bind (runsTo_readU8 e) ?_
  refine runsTo_bind (runsTo_readU8 x) ?_
  refine runsTo_bind (runsTo_readU64 hp) ?_
  refine runsTo_bind (runsTo_readU64 hn) ?_
  refine runsTo_bind (runsTo_readU64 hl) ?_
  refine runsTo_bind (runsTo_readU64 hg) ?_
  exact runsTo_bind_pure (runsTo_decodeRegisters64 32 regs hr)

theorem runsTo_single_parts {self : SingleThreadedFPVMState}
    {bmem key off4 pc4 npc4 lo4 hi4 heap4 step8 regs hint : List Nat}
    {ec ex hlen : Nat} {mm : Memory}
    (hmem : RunsTo self.memory.decode bmem mm)
    (hkey : key.length = 32) (hoff : off4.length = 4) (hpc : pc4.length = 4)
    (hnpc : npc4.length = 4) (hlo : lo4.length = 4) (hhi : hi4.length = 4)
    (hheap : heap4.length = 4) (hstep : step8.length = 8) (hregs : regs.length = 128)
    (hhint : hint.length = hlen) (hlen32 : hlen < 4294967296) :
    RunsTo (SingleThreadedFPVMState.decode self)
      (bmem ++ (key ++ (off4 ++ (pc4 ++ (npc4 ++ (lo4 ++ (hi4 ++ (heap4 ++ ([ec] ++ ([ex] ++ (step8 ++ (regs ++ (be32 hlen ++ (hint))))))))))))))
      { memory := mm
        preimage_key := key
        perimage_offset := beVal off4
        cpu := { pc := beVal pc4, next_pc := beVal npc4, lo := beVal lo4, hi := beVal hi4 }
        heap := beVal heap4
        exit_code := ec
        exited := ex != 0
        step := beVal step8
        registers := regVals 32 regs
        last_hint := if hlen > 0 then hint else self.last_hint } := by
  unfold SingleThreadedFPVMState.decode
  refine runsTo_bind hmem ?_
  refine runsTo_bind (runsTo_readExact hkey) ?_
  refine runsTo_bind (runsTo_readU32 hoff) ?_
  refine runsTo_bind (runsTo_readU32 hpc) ?_
  refine runsTo_bind (runsTo_readU32 hnpc) ?_
  refine runsTo_bind (runsTo_readU32 hlo) ?_
  refine runsTo_bind (runsTo_readU32 hhi) ?_
  refine runsTo_bind (runsTo_readU32 hheap) ?_
  refine runsTo_bind (runsTo_readU8 ec) ?_
  refine runsTo_bind (runsTo_readU8 ex) ?_
  refine runsTo_bind (runsTo_readU64 hstep) ?_
  refine runsTo_bind (runsTo_decodeRegisters 32 regs hregs) ?_
  refine runsTo_bind (runsTo_be32 hlen32) ?_
  exact runsTo_bind_pure (runsTo_readLastHint hhint)

theorem runsTo_multiV2_parts {self : MultiThreadedV2State}
    {bmem key off4 heap4 lladdr4 llown4 step8 ssls8 ntid4 hint : List Nat}
    {st ec ex tr hlen : Nat} {mm : Memory}
    {pairsL pairsR : List (List Nat × ThreadState)}
    (hmem : RunsTo self.memory.decode bmem mm)
    (hkey : key.length = 32) (hoff : off4.length = 4) (hheap : heap4.length = 4)
    (hlla : lladdr4.length = 4) (hllo : llown4.length = 4) (hstep : step8.length = 8)
    (hssls : ssls8.length = 8) (hntid : ntid4.length = 4)
    (hL : pairsL.length < 4294967296) (hR : pairsR.length < 4294967296)
    (hpl : ∀ p ∈ pairsL, RunsTo ThreadState.decode p.1 p.2)
    (hpr : ∀ p ∈ pairsR, RunsTo ThreadState.decode p.1 p.2)
    (hhint : hint.length = hlen) (hlen32 : hlen < 4294967296) :
    RunsTo (MultiThreadedV2State.decode self)
      (bmem ++ (key ++ (off4 ++ (heap4 ++ ([st] ++ (lladdr4 ++ (llown4 ++ ([ec] ++ ([ex] ++ (step8 ++ (ssls8 ++ ([tr] ++ (ntid4 ++ (be32 pairsL.length ++ ((pairsL.map Prod.fst).flatten ++ (be32 pairsR.length ++ ((pairsR.map Prod.fst).flatten ++ (be32 hlen ++ (hint)))))))))))))))))))
      { memory := mm
        preimage_key := key
        perimage_offset := beVal off4
        heap := beVal heap4
        ll_reservation_status := st
        ll_address := beVal lladdr4
        ll_owner_thread := beVal llown4
        exit_code := ec
        exited := ex != 0
        step := beVal step8
        steps_since_last_context_switch := beVal ssls8
        traverse_right := tr != 0
        left_thread_stack := pairsL.map Prod.snd
        right_thread_stack := pairsR.map Prod.snd
        next_thread_id := beVal ntid4
        last_hint := if hlen > 0 then hint else self.last_hint } := by
  unfold MultiThreadedV2State.decode
  refine runsTo_bind hmem ?_
  refine runsTo_bind (runsTo_readExact hkey) ?_
  refine runsTo_bind (runsTo_readU32 hoff) ?_
  refine runsTo_bind (runsTo_readU32 hheap) ?_
  refine runsTo_bind (runsTo_readU8 st) ?_
  refine runsTo_bind (runsTo_readU32 hlla) ?_
  refine runsTo_bind (runsTo_readU32 hllo) ?_
  refine runsTo_bind (runsTo_readU8 ec) ?_
  refine runsTo_bind (runsTo_readU8 ex) ?_
  refine runsTo_bind (runsTo_readU64 hstep) ?_
  refine runsTo_bind (runsTo_readU64 hssls) ?_
  refine runsTo_bind (runsTo_readU8 tr) ?_
  refine runsTo_bind (runsTo_readU32 hntid) ?_
  refine runsTo_bind (runsTo_be32 hL) ?_
  refine runsTo_bind (runsTo_decodeThreadStack pairsL hpl) ?_
  refine runsTo_bind (runsTo_be32 hR) ?_
  refine runsTo_bind (runsTo_decodeThreadStack pairsR hpr) ?_
  refine runsTo_bind (runsTo_be32 hlen32) ?_
  exact runsTo_bind_pure (runsTo_readLastHint hhint)

theorem runsTo_multi64_parts {self : MultiThreaded64V3}
    {bmem key off8 heap8 lladdr8 llown8 step8 ssls8 ntid8 hint : List Nat}
    {st ec ex tr hlen : Nat} {mm : Memory}
    {pairsL pairsR : List (List Nat × ThreadState64)}
    (hmem : RunsTo self.memory.decode bmem mm)
    (hkey : key.length = 32) (hoff : off8.length = 8) (hheap : heap8.length = 8)
    (hlla : lladdr8.length = 8) (hllo : llown8.length = 8) (hstep : step8.length = 8)
    (hssls : ssls8.length = 8) (hntid : ntid8.length = 8)
    (hL : pairsL.length < 18446744073709551616)
    (hR : pairsR.length < 18446744073709551616)
    (hpl : ∀ p ∈ pairsL, RunsTo ThreadState64.decode p.1 p.2)
    (hpr : ∀ p ∈ pairsR, RunsTo ThreadState64.decode p.1 p.2)
    (hhint : hint.length = hlen) (hlen32 : hlen < 4294967296) :
    RunsTo (MultiThreaded64V3.decode self)
      (bmem ++ (key ++ (off8 ++ (heap8 ++ ([st] ++ (lladdr8 ++ (llown8 ++ ([ec] ++ ([ex] ++ (step8 ++ (ssls8 ++ ([tr] ++ (ntid8 ++ (be64 pairsL.length ++ ((pairsL.map Prod.fst).flatten ++ (be64 pairsR.length ++ ((pairsR.map Prod.fst).flatten ++ (be32 hlen ++ (hint)))))))))))))))))))
      { memory := mm
        preimage_key := key
        perimage_offset := beVal off8
        heap := beVal heap8
        ll_reservation_status := st
        ll_address := beVal lladdr8
        ll_owner_thread := beVal llown8
        exit_code := ec
        exited := ex != 0
        step := beVal step8
        steps_since_last_context_switch := beVal ssls8
        traverse_right := tr != 0
        left_thread_stack := pairsL.map Prod.snd
        right_thread_stack := pairsR.map Prod.snd
        next_thread_id := beVal ntid8
        last_hint := if hlen > 0 then hint else self.last_hint } := by
  unfold MultiThreaded64V3.decode
  refine runsTo_bind hmem ?_
  refine runsTo_bind (runsTo_readExact hkey) ?_
  refine runsTo_bind (runsTo_readU64 hoff) ?_
  refine runsTo_bind (runsTo_readU64 hheap) ?_
  refine runsTo_bind (runsTo_readU8 st) ?_
  refine runsTo_bind (runsTo_readU64 hlla) ?_
  refine runsTo_bind (runsTo_readU64 hllo) ?_
  refine runsTo_bind (runsTo_readU8 ec) ?_
  refine runsTo_bind (runsTo_readU8 ex) ?_
  refine runsTo_bind (runsTo_readU64 hstep) ?_
  refine runsTo_bind (runsTo_readU64 hssls) ?_
  refine runsTo_bind (runsTo_readU8 tr) ?_
  refine runsTo_bind (runsTo_readU64 hntid) ?_
  refine runsTo_bind (runsTo_be64 hL) ?_
  refine runsTo_bind (runsTo_decodeThreadStack64 pairsL hpl) ?_
  refine runsTo_bind (runsTo_be64 hR) ?_
  refine runsTo_bind (runsTo_decodeThreadStack64 pairsR hpr) ?_
  refine runsTo_bind (runsTo_be32 hlen32) ?_
  exact runsTo_bind_pure (runsTo_readLastHint hhint)

/-! ## Truncation and allocation safety -/
theorem bindM_run {α β : Type} (m : M α) (f : α → M β) (b : List Nat) :
    bindM m f b = match m b with
      | (Except.ok (a, r), l1) => ((f a r).1, l1 ++ (f a r).2)
      | (Except.error e, l1) => (Except.error e, l1) := rfl

theorem AllocSafe_of_NoAlloc {α : Type} {m : M α} (h : NoAlloc m) : AllocSafe m := by
  intro b n hn
  rw [h b] at hn
  simp at hn

theorem Safe_pure {α : Type} (a : α) : Safe (pureM a) := by
  intro b v r h
  obtain ⟨rfl, rfl⟩ : a = v ∧ b = r := by simpa [pureM] using h
  refine ⟨[], rfl, fun t => rfl, fun k hk => by simp at hk⟩

theorem Safe_throw {α : Type} (e : DErr) : Safe (throwM (α := α) e) := by
  intro b v r h
  simp [throwM] at h

theorem Safe_readU8 : Safe readU8 := by
  intro b v r h
  cases b with
  | nil => simp [readU8] at h
  | cons x rest =>
    obtain ⟨rfl, rfl⟩ : x = v ∧ rest = r := by simpa [readU8] using h
    refine ⟨[x], rfl, fun t => rfl, fun k hk => ?_⟩
    have hk0 : k = 0 := by simp at hk; omega
    subst hk0
    rfl

theorem Safe_readExact (n : Nat) : Safe (readExact n) := by
  intro b v r h
  by_cases hn : n ≤ b.length
  · obtain ⟨rfl, rfl⟩ : b.take n = v ∧ b.drop n = r := by
      simpa [readExact, hn] using h
    have hc : (b.take n).length = n := by simp only [List.length_take]; omega
    refine ⟨b.take n, (List.take_append_drop n b).symm, fun t => ?_, fun k hk => ?_⟩
    · have hlen : n ≤ (b.take n ++ t).length := by
        simp only [List.length_append, hc]; omega
      simp only [readExact, if_pos hlen]
      rw [List.take_left' hc, List.drop_left' hc]
    · rw [hc] at hk
      have hlen : ¬ n ≤ ((b.take n).take k).length := by
        simp only [List.length_take]; omega
      simp only [readExact, if_neg hlen]
  · simp [readExact, hn] at h

theorem Safe_alloc (n : Nat) : Safe (alloc n) := by
  intro b v r h
  obtain ⟨rfl, rfl⟩ : List.replicate n 0 = v ∧ b = r := by simpa [alloc] using h
  refine ⟨[], rfl, fun t => rfl, fun k hk => by simp at hk⟩

theorem Safe_bind {α β : Type} {m : M α} {f : α → M β}
    (hm : Safe m) (hf : ∀ a, Safe (f a)) : Safe (bindM m f) := by
  intro b v r2 h
  rcases hp : m b with ⟨res, l1⟩
  rw [bindM_run, hp] at h
  cases res with
  | error e => simp at h
  | ok p =>
    obtain ⟨a, r1⟩ := p
    simp only at h
    obtain ⟨c1, hb1, hrun1, htr1⟩ := hm b a r1 (by rw [hp])
    obtain ⟨c2, hb2, hrun2, htr2⟩ := hf a r1 v r2 h
    refine ⟨c1 ++ c2, ?_, ?_, ?_⟩
    · rw [hb1, hb2, List.append_assoc]
    · intro t
      rw [List.append_assoc]
      have h1 := hrun1 (c2 ++ t)
      rcases hq : m (c1 ++ (c2 ++ t)) with ⟨res2, l⟩
      rw [hq] at h1
      simp only at h1
      subst h1
      rw [bindM_run, hq]
      exact hrun2 t
    · intro k hk
      rw [List.length_append] at hk
      rw [List.take_append_eq_append_take]
      by_cases hkc : k < c1.length
      · have hz : k - c1.length = 0 := by omega
        rw [hz, List.take_zero, List.append_nil]
        have h1 := htr1 k hkc
        rcases hq : m (c1.take k) with ⟨res2, l⟩
        rw [hq] at h1
        simp only at h1
        subst h1
        rw [bindM_run, hq]
      · have hc1 : c1.take k = c1 := List.take_of_length_le (by omega)
        rw [hc1]
        have h1 := hrun1 (c2.take (k - c1.length))
        rcases hq : m (c1 ++ c2.take (k - c1.length)) with ⟨res2, l⟩
        rw [hq] at h1
        simp only at h1
        subst h1
        rw [bindM_run, hq]
        exact htr2 (k - c1.length) (by omega)

theorem NoAlloc_pure {α : Type} (a : α) : NoAlloc (pureM a) := fun _ => rfl

theorem NoAlloc_throw {α : Type} (e : DErr) : NoAlloc (throwM (α := α) e) := fun _ => rfl

theorem NoAlloc_readU8 : NoAlloc readU8 := by
  intro b
  cases b <;> rfl

theorem NoAlloc_readExact (n : Nat) : NoAlloc (readExact n) := by
  intro b
  unfold readExact
  split <;> rfl

theorem NoAlloc_bind {α β : Type} {m : M α} {f : α → M β}
    (hm : NoAlloc m) (hf : ∀ a, NoAlloc (f a)) : NoAlloc (bindM m f) := by
  intro b
  rcases hp : m b with ⟨res, l1⟩
  have hl1 : l1 = [] := by
    have := hm b
    rw [hp] at this
    exact this
  subst hl1
  rw [bindM_run, hp]
  cases res with
  | error e => rfl
  | ok p =>
    obtain ⟨a, r⟩ := p
    simpa using hf a r

theorem NoAlloc_readU32 : NoAlloc readU32 :=
  NoAlloc_bind (NoAlloc_readExact 4) (fun c => NoAlloc_pure (beVal c))

theorem NoAlloc_readU64 : NoAlloc readU64 :=
  NoAlloc_bind (NoAlloc_readExact 8) (fun c => NoAlloc_pure (beVal c))

theorem Safe_readU32 : Safe readU32 :=
  Safe_bind (Safe_readExact 4) (fun c => Safe_pure (beVal c))

theorem Safe_readU64 : Safe readU64 :=
  Safe_bind (Safe_readExact 8) (fun c => Safe_pure (beVal c))

theorem SA_bind {α β : Type} {m : M α} {f : α → M β}
    (hm : SA m) (hf : ∀ a, SA (f a)) : SA (bindM m f) := by
  refine ⟨Safe_bind hm.1 (fun a => (hf a).1), ?_⟩
  intro b n hn
  rcases hp : m b with ⟨res, l1⟩
  cases res with
  | error e =>
    have hb : bindM m f b = (Except.error e, l1) := by rw [bindM_run, hp]
    rw [hb] at hn
    simp only at hn
    have := hm.2 b n (by rw [hp]; exact hn)
    rcases this with hle | herr
    · exact Or.inl hle
    · rw [hp] at herr
      simp only at herr
      injection herr with he
      subst he
      right
      rw [hb]
  | ok p =>
    obtain ⟨a, r1⟩ := p
    have hb : bindM m f b = ((f a r1).1, l1 ++ (f a r1).2) := by rw [bindM_run, hp]
    rw [hb] at hn
    simp only at hn
    rcases List.mem_append.mp hn with h1 | h2
    · have := hm.2 b n (by rw [hp]; exact h1)
      rcases this with hle | herr
      · exact Or.inl hle
      · rw [hp] at herr
        simp at herr
    · have := (hf a).2 r1 n h2
      rcases this with hle | herr
      · left
        obtain ⟨c1, hb1, _, _⟩ := hm.1 b a r1 (by rw [hp])
        rw [hb1, List.length_append]
        omega
      · right
        rw [hb]
        exact herr

theorem SA_of_NoAlloc {α : Type} {m : M α} (hs : Safe m) (hn : NoAlloc m) : SA m :=
  ⟨hs, AllocSafe_of_NoAlloc hn⟩

theorem SA_pure {α : Type} (a : α) : SA (pureM a) :=
  SA_of_NoAlloc (Safe_pure a) (NoAlloc_pure a)

theorem SA_throw {α : Type} (e : DErr) : SA (throwM (α := α) e) :=
  SA_of_NoAlloc (Safe_throw e) (NoAlloc_throw e)

theorem SA_readU8 : SA readU8 := SA_of_NoAlloc Safe_readU8 NoAlloc_readU8

theorem SA_readU32 : SA readU32 := SA_of_NoAlloc Safe_readU32 NoAlloc_readU32

theorem SA_readU64 : SA readU64 := SA_of_NoAlloc Safe_readU64 NoAlloc_readU64

theorem SA_readExact (n : Nat) : SA (readExact n) :=
  SA_of_NoAlloc (Safe_readExact n) (NoAlloc_readExact n)

theorem SA_readLastHint (d : List Nat) (len : Nat) : SA (readLastHint d len) := by
  unfold readLastHint
  by_cases hp : len > 0
  · rw [if_pos hp]
    constructor
    · exact Safe_bind (Safe_alloc len) (fun x => Safe_readExact len)
    · intro b n hn
      have hlog : (bindM (alloc len) (fun x => readExact len) b).2 = [len] := by
        rw [bindM_run]
        simp [alloc, NoAlloc_readExact len b]
      rw [hlog] at hn
      simp only [List.mem_singleton] at hn
      subst hn
      by_cases hfit : n ≤ b.length
      · exact Or.inl hfit
      · right
        rw [bindM_run]
        simp only [alloc]
        simp only [readExact, if_neg hfit]
  · rw [if_neg hp]
    exact SA_pure d

theorem SA_decodeRegisters (k : Nat) : SA (decodeRegisters k) := by
  induction k with
  | zero => exact SA_pure []
  | succ n ih =>
    refine SA_bind SA_readU32 fun r => ?_
    refine SA_bind ih fun rest => ?_
    exact SA_pure _

theorem SA_decodeRegisters64 (k : Nat) : SA (decodeRegisters64 k) := by
  induction k with
  | zero => exact SA_pure []
  | succ n ih =>
    refine SA_bind SA_readU64 fun r => ?_
    refine SA_bind ih fun rest => ?_
    exact SA_pure _

theorem SA_decodePages (k : Nat) : ∀ m : Memory, SA (decodePages k m) := by
  induction k with
  | zero => intro m; exact SA_pure m
  | succ n ih =>
    intro m
    refine SA_bind SA_readU32 fun i => ?_
    refine SA_bind (SA_readExact 4096) fun d => ?_
    exact ih _

theorem SA_memory (m : Memory) : SA (Memory.decode m) := by
  unfold Memory.decode
  refine SA_bind SA_readU32 fun n => ?_
  exact SA_decodePages n _

theorem SA_threadState : SA ThreadState.decode := by
  unfold ThreadState.decode
  refine SA_bind SA_readU32 fun a => ?_
  refine SA_bind SA_readU8 fun e => ?_
  refine SA_bind SA_readU8 fun x => ?_
  refine SA_bind SA_readU32 fun pc => ?_
  refine SA_bind SA_readU32 fun npc => ?_
  refine SA_bind SA_readU32 fun lo => ?_
  refine SA_bind SA_readU32 fun hi => ?_
  refine SA_bind (SA_decodeRegisters 32) fun regs => ?_
  exact SA_pure _

theorem SA_threadState64 : SA ThreadState64.decode := by
  unfold ThreadState64.decode
  refine SA_bind SA_readU64 fun a => ?_
  refine SA_bind SA_readU8 fun e => ?_
  refine SA_bind SA_readU8 fun x => ?_
  refine SA_bind SA_readU64 fun pc => ?_
  refine SA_bind SA_readU64 fun npc => ?_
  refine SA_bind SA_readU64 fun lo => ?_
  refine SA_bind SA_readU64 fun hi => ?_
  refine SA_bind (SA_decodeRegisters64 32) fun regs => ?_
  exact SA_pure _

theorem SA_decodeThreadStack (k : Nat) : SA (decodeThreadStack k) := by
  induction k with
  | zero => exact SA_pure []
  | succ n ih =>
    refine SA_bind SA_threadState fun t => ?_
    refine SA_bind ih fun rest => ?_
    exact SA_pure _

theorem SA_decodeThreadStack64 (k : Nat) : SA (decodeThreadStack64 k) := by
  induction k with
  | zero => exact SA_pure []
  | succ n ih =>
    refine SA_bind SA_threadState64 fun t => ?_
    refine SA_bind ih fun rest => ?_
    exact SA_pure _

theorem SA_single (self : SingleThreadedFPVMState) :
    SA (SingleThreadedFPVMState.decode self) := by
  unfold SingleThreadedFPVMState.decode
  refine SA_bind (SA_memory _) fun memory => ?_
  refine SA_bind (SA_readExact 32) fun preimage_key => ?_
  refine SA_bind SA_readU32 fun off => ?_
  refine SA_bind SA_readU32 fun pc => ?_
  refine SA_bind SA_readU32 fun npc => ?_
  refine SA_bind SA_readU32 fun lo => ?_
  refine SA_bind SA_readU32 fun hi => ?_
  refine SA_bind SA_readU32 fun heap => ?_
  refine SA_bind SA_readU8 fun ec => ?_
  refine SA_bind SA_readU8 fun ex => ?_
  refine SA_bind SA_readU64 fun step => ?_
  refine SA_bind (SA_decodeRegisters 32) fun registers => ?_
  refine SA_bind SA_readU32 fun len => ?_
  refine SA_bind (SA_readLastHint _ _) fun hint => ?_
  exact SA_pure _

theorem SA_multiV2 (self : MultiThreadedV2State) :
    SA (MultiThreadedV2State.decode self) := by
  unfold MultiThreadedV2State.decode
  refine SA_bind (SA_memory _) fun memory => ?_
  refine SA_bind (SA_readExact 32) fun preimage_key => ?_
  refine SA_bind SA_readU32 fun off => ?_
  refine SA_bind SA_readU32 fun heap => ?_
  refine SA_bind SA_readU8 fun st => ?_
  refine SA_bind SA_readU32 fun lladdr => ?_
  refine SA_bind SA_readU32 fun llown => ?_
  refine SA_bind SA_readU8 fun ec => ?_
  refine SA_bind SA_readU8 fun ex => ?_
  refine SA_bind SA_readU64 fun step => ?_
  refine SA_bind SA_readU64 fun ssls => ?_
  refine SA_bind SA_readU8 fun tr => ?_
  refine SA_bind SA_readU32 fun ntid => ?_
  refine SA_bind SA_readU32 fun nL => ?_
  refine SA_bind (SA_decodeThreadStack nL) fun stL => ?_
  refine SA_bind SA_readU32 fun nR => ?_
  refine SA_bind (SA_decodeThreadStack nR) fun stR => ?_
  refine SA_bind SA_readU32 fun len => ?_
  refine SA_bind (SA_readLastHint _ _) fun hint => ?_
  exact SA_pure _

theorem SA_multi64 (self : MultiThreaded64V3) :
    SA (MultiThreaded64V3.decode self) := by
  unfold MultiThreaded64V3.decode
  refine SA_bind (SA_memory _) fun memory => ?_
  refine SA_bind (SA_readExact 32) fun preimage_key => ?_
  refine SA_bind SA_readU64 fun off => ?_
  refine SA_bind SA_readU64 fun heap => ?_
  refine SA_bind SA_readU8 fun st => ?_
  refine SA_bind SA_readU64 fun lladdr => ?_
  refine SA_bind SA_readU64 fun llown => ?_
  refine SA_bind SA_readU8 fun ec => ?_
  refine SA_bind SA_readU8 fun ex => ?_
  refine SA_bind SA_readU64 fun step => ?_
  refine SA_bind SA_readU64 fun ssls => ?_
  refine SA_bind SA_readU8 fun tr => ?_
  refine SA_bind SA_readU64 fun ntid => ?_
  refine SA_bind SA_readU64 fun nL => ?_
  refine SA_bind (SA_decodeThreadStack64 nL) fun stL => ?_
  refine SA_bind SA_readU64 fun nR => ?_
  refine SA_bind (SA_decodeThreadStack64 nR) fun stR => ?_
  refine SA_bind SA_readU32 fun len => ?_
  refine SA_bind (SA_readLastHint _ _) fun hint => ?_
  exact SA_pure _

theorem SA_versioned : SA VersionedState.decode := by
  unfold VersionedState.decode
  refine SA_bind SA_readU8 fun version => ?_
  rcases CannonVersion.try_from version with e | c
  · exact SA_throw _
  · cases c
    · refine SA_bind (SA_single _) fun s => ?_
      exact SA_pure _
    · refine SA_bind (SA_multiV2 _) fun s => ?_
      exact SA_pure _
    · refine SA_bind (SA_multi64 _) fun s => ?_
      exact SA_pure _

theorem tryFrom_invalid {v : Nat} (h2 : v ≠ 2) (h5 : v ≠ 5) (h6 : v ≠ 6) :
    CannonVersion.try_from v = Except.error v := by
  unfold CannonVersion.try_from
  split
  · omega
  · omega
  · omega
  · rfl

/-- C1: for a leading byte outside {2, 5, 6}, `TryFrom<Vec<u8>>` does not return an
`UnsupportedVersion` error to the caller: the `.unwrap()` inside
`VersionedState::decode` panics with the invalid byte, independently of any
following bytes. -/
theorem c1_invalid_version_panics (v : Nat) (rest : List Nat)
    (h2 : v ≠ 2) (h5 : v ≠ 5) (h6 : v ≠ 6) :
    VersionedState.try_from (v :: rest) = TFResult.panicked v := by
  unfold VersionedState.try_from VersionedState.decode
  rw [bindM_run]
  simp only [readU8]
  rw [tryFrom_invalid h2 h5 h6]
  rfl

theorem c1_invalid_version_panics_witness :
    (7 : Nat) ≠ 2 ∧ (7 : Nat) ≠ 5 ∧ (7 : Nat) ≠ 6 ∧
      VersionedState.try_from (7 :: [99, 98]) = TFResult.panicked 7 :=
  ⟨by decide, by decide, by decide,
    c1_invalid_version_panics 7 [99, 98] (by decide) (by decide) (by decide)⟩

/-- C2: truncating a buffer that decodes successfully at any point strictly before
its consumed end makes `TryFrom<Vec<u8>>` fail with `UnexpectedEndOfInput`. -/
theorem c2_truncation_eof (b : List Nat) (v : VersionedState) (r : List Nat)
    (h : (VersionedState.decode b).1 = Except.ok (v, r)) :
    ∀ k, k < b.length - r.length →
      VersionedState.try_from (b.take k) = TFResult.err DErr.eof := by
  obtain ⟨c, hb, hrun, htr⟩ := SA_versioned.1 b v r h
  intro k hk
  have hcl : c.length = b.length - r.length := by
    rw [hb, List.length_append]; omega
  have hk2 : k < c.length := by omega
  have htake : b.take k = c.take k := by
    rw [hb, List.take_append_eq_append_take]
    have hz : k - c.length = 0 := by omega
    rw [hz, List.take_zero, List.append_nil]
  rw [htake]
  unfold VersionedState.try_from
  rw [htr k hk2]

theorem c3_prealloc_counterexample :
    (VersionedState.decode c3buf).2 = [4294967295] ∧ c3buf.length = 203 ∧
      VersionedState.try_from c3buf = TFResult.err DErr.eof := by
  refine ⟨by decide, by simp [c3buf], by decide⟩

/-- C3 (amended): a declared length that exceeds the remaining buffer still makes the
decode fail with `UnexpectedEndOfInput` (no out-of-bounds read, no success), even
though the hint length is used for a `vec![0; n]` allocation before validation:
every allocation larger than the whole input belongs to a failing run. -/
theorem c3_oversized_length_fails (b : List Nat) (n : Nat)
    (hn : n ∈ (VersionedState.decode b).2) (hover : b.length < n) :
    (VersionedState.decode b).1 = Except.error DErr.eof := by
  rcases SA_versioned.2 b n hn with hle | herr
  · omega
  · exact herr

theorem c3_oversized_length_fails_witness :
    (4294967295 : Nat) ∈ (VersionedState.decode c3buf).2 ∧ c3buf.length < 4294967295 ∧
      (VersionedState.decode c3buf).1 = Except.error DErr.eof :=
  ⟨by decide, by simp [c3buf], c3_oversized_length_fails c3buf 4294967295 (by decide)
    (by simp [c3buf])⟩

/-- C5: on an unrecognized version byte the decode entry point neither returns a
state nor returns an error — it panics — so it is not true that every buffer
yields a state or an error return; no partial struct is ever produced either way. -/
theorem c5_panic_outcome : VersionedState.try_from [4] = TFResult.panicked 4 := by
  decide

/-- C10: a buffer that decodes successfully still decodes to the same state after
appending arbitrary extra bytes; the surplus is ignored. -/
theorem c10_trailing_bytes_ignored (b : List Nat) (v : VersionedState)
    (h : VersionedState.try_from b = TFResult.ok v) (extra : List Nat) :
    VersionedState.try_from (b ++ extra) = TFResult.ok v := by
  unfold VersionedState.try_from at h ⊢
  rcases hd : (VersionedState.decode b).1 with e | p
  · rw [hd] at h
    cases e <;> simp at h
  · obtain ⟨v2, r⟩ := p
    rw [hd] at h
    simp only [TFResult.ok.injEq] at h
    subst h
    obtain ⟨c, hb, hrun, _⟩ := SA_versioned.1 b v2 r hd
    have hx : b ++ extra = c ++ (r ++ extra) := by
      rw [hb, List.append_assoc]
    rw [hx, hrun (r ++ extra)]

theorem c2_truncation_eof_witness :
    (VersionedState.decode c2buf).1 = Except.ok (c2val, []) ∧ (100 : Nat) < c2buf.length - 0 ∧
      VersionedState.try_from (c2buf.take 100) = TFResult.err DErr.eof :=
  ⟨by decide, by decide,
    c2_truncation_eof c2buf c2val [] (by decide) 100 (by decide)⟩

theorem c10_trailing_bytes_ignored_witness :
    VersionedState.try_from c2buf = TFResult.ok c2val ∧
      VersionedState.try_from (c2buf ++ [9, 9, 9]) = TFResult.ok c2val :=
  ⟨by decide, c10_trailing_bytes_ignored c2buf c2val (by decide) [9, 9, 9]⟩

theorem readU32_eval {b : List Nat} (h : 4 ≤ b.length) :
    readU32 b = (Except.ok (beVal (b.take 4), b.drop 4), []) := by
  unfold readU32
  rw [bindM_run]
  simp only [readExact, if_pos h]
  rfl

/-- C6: a page count of `0` decodes successfully, consumes only the 4 count bytes,
and leaves the page mapping exactly as it was; a positive page count makes the
result independent of the prior mapping (it is replaced by a fresh map). -/
theorem c6_page_count_zero_frame :
    (∀ (m : Memory) (t : List Nat),
        (Memory.decode m ([0, 0, 0, 0] ++ t)).1 = Except.ok (m, t)) ∧
    (∀ (m1 m2 : Memory) (b : List Nat), 4 ≤ b.length → 0 < beVal (b.take 4) →
        (Memory.decode m1 b).1 = (Memory.decode m2 b).1) := by
  constructor
  · intro m t
    have h := @runsTo_memory_decode m [] (by simp) (by norm_num)
    exact h t
  · intro m1 m2 b h4 hpos
    unfold Memory.decode
    rw [bindM_run, bindM_run, readU32_eval h4]
    simp only
    rw [if_pos hpos, if_pos hpos]

theorem c6_page_count_zero_frame_witness :
    (Memory.decode ⟨[(9, [1, 2, 3])]⟩ ([0, 0, 0, 0] ++ [7, 7])).1 =
        Except.ok (⟨[(9, [1, 2, 3])]⟩, [7, 7]) ∧
      (4 : Nat) ≤ ([0, 0, 0, 1] : List Nat).length ∧
      0 < beVal (([0, 0, 0, 1] : List Nat).take 4) ∧
      (Memory.decode ⟨[(9, [1, 2, 3])]⟩ [0, 0, 0, 1]).1 =
        (Memory.decode ⟨[]⟩ [0, 0, 0, 1]).1 :=
  ⟨c6_page_count_zero_frame.1 ⟨[(9, [1, 2, 3])]⟩ [7, 7], by decide, by decide,
    c6_page_count_zero_frame.2 ⟨[(9, [1, 2, 3])]⟩ ⟨[]⟩ [0, 0, 0, 1] (by decide) (by decide)⟩

theorem lookup_insertPage (l : List (Nat × List Nat)) (k : Nat) (v : List Nat)
    (i : Nat) :
    lookupPage (insertPage l k v) i = if k = i then some v else lookupPage l i := by
  induction l with
  | nil => rfl
  | cons p rest ih =>
    obtain ⟨k1, v1⟩ := p
    simp only [insertPage, lookupPage]
    by_cases hk : k1 = k
    · subst hk
      rw [if_pos rfl]
      simp only [lookupPage]
      by_cases hi : k1 = i <;> simp [hi]
    · rw [if_neg hk]
      simp only [lookupPage, ih]
      by_cases hi : k1 = i
      · subst hi
        have hki : ¬ k = k1 := fun hh => hk hh.symm
        simp [hki]
      · simp [hi]

theorem lookup_insertPages (pairs : List (Nat × List Nat)) :
    ∀ (acc : List (Nat × List Nat)) (i : Nat),
      lookupPage (insertPages acc pairs) i =
        match lastPayload pairs i with
        | some v => some v
        | none => lookupPage acc i := by
  induction pairs with
  | nil => intro acc i; rfl
  | cons p rest ih =>
    intro acc i
    have hstep : insertPages acc (p :: rest) = insertPages (insertPage acc p.1 p.2) rest := rfl
    rw [hstep, ih (insertPage acc p.1 p.2) i, lookup_insertPage]
    simp only [lastPayload]
    cases lastPayload rest i with
    | some v => rfl
    | none =>
      by_cases hi : p.1 = i
      · rw [if_pos hi, if_pos hi]
      · rw [if_neg hi, if_neg hi]

/-- C9: decoding page records with duplicate indices keeps, for every index, the
payload of the last record in the input (later inserts overwrite earlier ones). -/
theorem c9_last_write_wins (self : Memory) (pairs : List (Nat × List Nat))
    (h0 : 0 < pairs.length) (hn : pairs.length < 4294967296)
    (hp : ∀ p ∈ pairs, p.1 < 4294967296 ∧ p.2.length = 4096) :
    ∃ mfin, RunsTo (Memory.decode self)
        (be32 pairs.length ++ (pairs.map (fun p => be32 p.1 ++ p.2)).flatten) mfin ∧
      ∀ i, lookupPage mfin.pages i = lastPayload pairs i := by
  refine ⟨⟨insertPages [] pairs⟩, ?_, ?_⟩
  · have h := @runsTo_memory_decode self pairs hp hn
    rwa [if_pos h0] at h
  · intro i
    rw [lookup_insertPages pairs [] i]
    cases lastPayload pairs i <;> rfl

theorem c9_last_write_wins_witness :
    ∃ mfin, RunsTo (Memory.decode Memory.default)
        (be32 c9pairs.length ++ (c9pairs.map (fun p => be32 p.1 ++ p.2)).flatten) mfin ∧
      ∀ i, lookupPage mfin.pages i = lastPayload c9pairs i :=
  c9_last_write_wins Memory.default c9pairs (by decide) (by decide)
    (by
      intro p hp
      simp only [c9pairs, List.mem_cons, List.not_mem_nil, or_false] at hp
      rcases hp with h | h <;> subst h <;> exact ⟨by norm_num, by rw [List.length_replicate]⟩)

/-- C7: for well-formed MultiThreadedV2 and MultiThreaded64V3 buffers carrying N
left-stack and M right-stack thread-context records, the decoded stacks equal the
input records position-for-position (push order preserved exactly). -/
theorem c7_thread_stack_order :
    (∀ (self : MultiThreadedV2State)
        (bmem key off4 heap4 lladdr4 llown4 step8 ssls8 ntid4 hint : List Nat)
        (st ec ex tr hlen : Nat) (mm : Memory)
        (pairsL pairsR : List (List Nat × ThreadState)),
        RunsTo self.memory.decode bmem mm →
        key.length = 32 → off4.length = 4 → heap4.length = 4 →
        lladdr4.length = 4 → llown4.length = 4 → step8.length = 8 →
        ssls8.length = 8 → ntid4.length = 4 →
        pairsL.length < 4294967296 → pairsR.length < 4294967296 →
        (∀ p ∈ pairsL, RunsTo ThreadState.decode p.1 p.2) →
        (∀ p ∈ pairsR, RunsTo ThreadState.decode p.1 p.2) →
        hint.length = hlen → hlen < 4294967296 →
        ∃ s, RunsTo (MultiThreadedV2State.decode self)
            (bmem ++ (key ++ (off4 ++ (heap4 ++ ([st] ++ (lladdr4 ++ (llown4 ++
              ([ec] ++ ([ex] ++ (step8 ++ (ssls8 ++ ([tr] ++ (ntid4 ++
              (be32 pairsL.length ++ ((pairsL.map Prod.fst).flatten ++
              (be32 pairsR.length ++ ((pairsR.map Prod.fst).flatten ++
              (be32 hlen ++ hint)))))))))))))))))) s ∧
          s.left_thread_stack = pairsL.map Prod.snd ∧
          s.right_thread_stack = pairsR.map Prod.snd) ∧
    (∀ (self : MultiThreaded64V3)
        (bmem key off8 heap8 lladdr8 llown8 step8 ssls8 ntid8 hint : List Nat)
        (st ec ex tr hlen : Nat) (mm : Memory)
        (pairsL pairsR : List (List Nat × ThreadState64)),
        RunsTo self.memory.decode bmem mm →
        key.length = 32 → off8.length = 8 → heap8.length = 8 →
        lladdr8.length = 8 → llown8.length = 8 → step8.length = 8 →
        ssls8.length = 8 → ntid8.length = 8 →
        pairsL.length < 18446744073709551616 → pairsR.length < 18446744073709551616 →
        (∀ p ∈ pairsL, RunsTo ThreadState64.decode p.1 p.2) →
        (∀ p ∈ pairsR, RunsTo ThreadState64.decode p.1 p.2) →
        hint.length = hlen → hlen < 4294967296 →
        ∃ s, RunsTo (MultiThreaded64V3.decode self)
            (bmem ++ (key ++ (off8 ++ (heap8 ++ ([st] ++ (lladdr8 ++ (llown8 ++
              ([ec] ++ ([ex] ++ (step8 ++ (ssls8 ++ ([tr] ++ (ntid8 ++
              (be64 pairsL.length ++ ((pairsL.map Prod.fst).flatten ++
              (be64 pairsR.length ++ ((pairsR.map Prod.fst).flatten ++
              (be32 hlen ++ hint)))))))))))))))))) s ∧
          s.left_thread_stack = pairsL.map Prod.snd ∧
          s.right_thread_stack = pairsR.map Prod.snd) := by
  constructor
  · intro self bmem key off4 heap4 lladdr4 llown4 step8 ssls8 ntid4 hint st ec ex tr
      hlen mm pairsL pairsR hmem hkey hoff hheap hlla hllo hstep hssls hntid hL hR
      hpl hpr hhint hlen32
    exact ⟨_, runsTo_multiV2_parts hmem hkey hoff hheap hlla hllo hstep hssls hntid
      hL hR hpl hpr hhint hlen32, rfl, rfl⟩
  · intro self bmem key off8 heap8 lladdr8 llown8 step8 ssls8 ntid8 hint st ec ex tr
      hlen mm pairsL pairsR hmem hkey hoff hheap hlla hllo hstep hssls hntid hL hR
      hpl hpr hhint hlen32
    exact ⟨_, runsTo_multi64_parts hmem hkey hoff hheap hlla hllo hstep hssls hntid
      hL hR hpl hpr hhint hlen32, rfl, rfl⟩

theorem c7_thread_stack_order_witness :
    (∃ s, RunsTo (MultiThreadedV2State.decode MultiThreadedV2State.default)
        ([0, 0, 0, 0] ++ (List.replicate 32 0 ++ ([0, 0, 0, 0] ++ ([0, 0, 0, 0] ++ ([0] ++ ([0, 0, 0, 0] ++ ([0, 0, 0, 0] ++ ([0] ++ ([0] ++ ([0, 0, 0, 0, 0, 0, 0, 0] ++ ([0, 0, 0, 0, 0, 0, 0, 0] ++ ([0] ++ ([0, 0, 0, 0] ++ (be32 [(c7chunk, c7ts)].length ++ (([(c7chunk, c7ts)].map Prod.fst).flatten ++ (be32 ([] : List (List Nat × ThreadState)).length ++ ((([] : List (List Nat × ThreadState)).map Prod.fst).flatten ++ (be32 0 ++ (([] : List Nat)))))))))))))))))))) s ∧
      s.left_thread_stack = [c7ts] ∧ s.right_thread_stack = []) ∧
    (∃ s, RunsTo (MultiThreaded64V3.decode MultiThreaded64V3.default)
        ([0, 0, 0, 0] ++ (List.replicate 32 0 ++ ([0, 0, 0, 0, 0, 0, 0, 0] ++ ([0, 0, 0, 0, 0, 0, 0, 0] ++ ([0] ++ ([0, 0, 0, 0, 0, 0, 0, 0] ++ ([0, 0, 0, 0, 0, 0, 0, 0] ++ ([0] ++ ([0] ++ ([0, 0, 0, 0, 0, 0, 0, 0] ++ ([0, 0, 0, 0, 0, 0, 0, 0] ++ ([0] ++ ([0, 0, 0, 0, 0, 0, 0, 0] ++ (be64 [(c7chunk64, c7ts64)].length ++ (([(c7chunk64, c7ts64)].map Prod.fst).flatten ++ (be64 ([] : List (List Nat × ThreadState64)).length ++ ((([] : List (List Nat × ThreadState64)).map Prod.fst).flatten ++ (be32 0 ++ (([] : List Nat)))))))))))))))))))) s ∧
      s.left_thread_stack = [c7ts64] ∧ s.right_thread_stack = []) := by
  constructor
  · have hmem : RunsTo (Memory.decode MultiThreadedV2State.default.memory)
        [0, 0, 0, 0] Memory.default :=
      @runsTo_memory_decode Memory.default [] (by simp) (by norm_num)
    have hts : RunsTo ThreadState.decode c7chunk c7ts :=
      runsTo_threadState_parts rfl rfl rfl rfl rfl (by rw [List.length_replicate])
    have hpl : ∀ p ∈ [(c7chunk, c7ts)], RunsTo ThreadState.decode p.1 p.2 := by
      intro p hp
      simp only [List.mem_singleton] at hp
      subst hp
      exact hts
    have hpr : ∀ p ∈ ([] : List (List Nat × ThreadState)),
        RunsTo ThreadState.decode p.1 p.2 := by
      intro p hp
      simp at hp
    obtain ⟨s, hs, hL, hR⟩ := c7_thread_stack_order.1 MultiThreadedV2State.default
      [0, 0, 0, 0] (List.replicate 32 0) [0, 0, 0, 0] [0, 0, 0, 0] [0, 0, 0, 0]
      [0, 0, 0, 0] [0, 0, 0, 0, 0, 0, 0, 0] [0, 0, 0, 0, 0, 0, 0, 0] [0, 0, 0, 0]
      [] 0 0 0 0 0 Memory.default [(c7chunk, c7ts)] [] hmem
      (by rw [List.length_replicate]) rfl rfl rfl rfl rfl rfl rfl (by norm_num)
      (by norm_num) hpl hpr rfl (by norm_num)
    exact ⟨s, hs, hL, hR⟩
  · have hmem : RunsTo (Memory.decode MultiThreaded64V3.default.memory)
        [0, 0, 0, 0] Memory.default :=
      @runsTo_memory_decode Memory.default [] (by simp) (by norm_num)
    have hts : RunsTo ThreadState64.decode c7chunk64 c7ts64 :=
      runsTo_threadState64_parts rfl rfl rfl rfl rfl (by rw [List.length_replicate])
    have hpl : ∀ p ∈ [(c7chunk64, c7ts64)], RunsTo ThreadState64.decode p.1 p.2 := by
      intro p hp
      simp only [List.mem_singleton] at hp
      subst hp
      exact hts
    have hpr : ∀ p ∈ ([] : List (List Nat × ThreadState64)),
        RunsTo ThreadState64.decode p.1 p.2 := by
      intro p hp
      simp at hp
    obtain ⟨s, hs, hL, hR⟩ := c7_thread_stack_order.2 MultiThreaded64V3.default
      [0, 0, 0, 0] (List.replicate 32 0) [0, 0, 0, 0, 0, 0, 0, 0]
      [0, 0, 0, 0, 0, 0, 0, 0] [0, 0, 0, 0, 0, 0, 0, 0] [0, 0, 0, 0, 0, 0, 0, 0]
      [0, 0, 0, 0, 0, 0, 0, 0] [0, 0, 0, 0, 0, 0, 0, 0] [0, 0, 0, 0, 0, 0, 0, 0]
      [] 0 0 0 0 0 Memory.default [(c7chunk64, c7ts64)] [] hmem
      (by rw [List.length_replicate]) rfl rfl rfl rfl rfl rfl rfl (by norm_num)
      (by norm_num) hpl hpr rfl (by norm_num)
    exact ⟨s, hs, hL, hR⟩

/-- C8: a hint-length prefix of `0` yields an empty `last_hint`; a prefix `k > 0`
consumes exactly the `k` bytes that follow as the hint blob — shown for the
SingleThreaded2 and MultiThreaded64V3 decoders run on a fresh default struct. -/
theorem c8_hint_blob_exact :
    (∀ (bmem key off4 pc4 npc4 lo4 hi4 heap4 step8 regs hint : List Nat)
        (ec ex hlen : Nat) (mm : Memory),
        RunsTo SingleThreadedFPVMState.default.memory.decode bmem mm →
        key.length = 32 → off4.length = 4 → pc4.length = 4 → npc4.length = 4 →
        lo4.length = 4 → hi4.length = 4 → heap4.length = 4 → step8.length = 8 →
        regs.length = 128 → hint.length = hlen → hlen < 4294967296 →
        ∃ s, RunsTo (SingleThreadedFPVMState.decode SingleThreadedFPVMState.default)
            (bmem ++ (key ++ (off4 ++ (pc4 ++ (npc4 ++ (lo4 ++ (hi4 ++ (heap4 ++ ([ec] ++ ([ex] ++ (step8 ++ (regs ++ (be32 hlen ++ (hint)))))))))))))) s ∧
          s.last_hint = hint) ∧
    (∀ (bmem key off8 heap8 lladdr8 llown8 step8 ssls8 ntid8 hint : List Nat)
        (st ec ex tr hlen : Nat) (mm : Memory)
        (pairsL pairsR : List (List Nat × ThreadState64)),
        RunsTo MultiThreaded64V3.default.memory.decode bmem mm →
        key.length = 32 → off8.length = 8 → heap8.length = 8 →
        lladdr8.length = 8 → llown8.length = 8 → step8.length = 8 →
        ssls8.length = 8 → ntid8.length = 8 →
        pairsL.length < 18446744073709551616 → pairsR.length < 18446744073709551616 →
        (∀ p ∈ pairsL, RunsTo ThreadState64.decode p.1 p.2) →
        (∀ p ∈ pairsR, RunsTo ThreadState64.decode p.1 p.2) →
        hint.length = hlen → hlen < 4294967296 →
        ∃ s, RunsTo (MultiThreaded64V3.decode MultiThreaded64V3.default)
            (bmem ++ (key ++ (off8 ++ (heap8 ++ ([st] ++ (lladdr8 ++ (llown8 ++ ([ec] ++ ([ex] ++ (step8 ++ (ssls8 ++ ([tr] ++ (ntid8 ++ (be64 pairsL.length ++ ((pairsL.map Prod.fst).flatten ++ (be64 pairsR.length ++ ((pairsR.map Prod.fst).flatten ++ (be32 hlen ++ (hint))))))))))))))))))) s ∧
          s.last_hint = hint) := by
  constructor
  · intro bmem key off4 pc4 npc4 lo4 hi4 heap4 step8 regs hint ec ex hlen mm
      hmem hkey hoff hpc hnpc hlo hhi hheap hstep hregs hhint hlen32
    refine ⟨_, runsTo_single_parts hmem hkey hoff hpc hnpc hlo hhi hheap hstep
      hregs hhint hlen32, ?_⟩
    by_cases hp : hlen > 0
    · rw [if_pos hp]
    · rw [if_neg hp]
      have h0 : hint = [] := List.length_eq_zero.mp (by omega)
      rw [h0]
      rfl
  · intro bmem key off8 heap8 lladdr8 llown8 step8 ssls8 ntid8 hint st ec ex tr
      hlen mm pairsL pairsR hmem hkey hoff hheap hlla hllo hstep hssls hntid hL hR
      hpl hpr hhint hlen32
    refine ⟨_, runsTo_multi64_parts hmem hkey hoff hheap hlla hllo hstep hssls
      hntid hL hR hpl hpr hhint hlen32, ?_⟩
    by_cases hp : hlen > 0
    · rw [if_pos hp]
    · rw [if_neg hp]
      have h0 : hint = [] := List.length_eq_zero.mp (by omega)
      rw [h0]
      rfl

theorem c8_hint_blob_exact_witness :
    (∃ s, RunsTo (SingleThreadedFPVMState.decode SingleThreadedFPVMState.default)
        ([0, 0, 0, 0] ++ (List.replicate 32 0 ++ ([0, 0, 0, 0] ++ ([0, 0, 0, 0] ++ ([0, 0, 0, 0] ++ ([0, 0, 0, 0] ++ ([0, 0, 0, 0] ++ ([0, 0, 0, 0] ++ ([0] ++ ([0] ++ ([0, 0, 0, 0, 0, 0, 0, 0] ++ (List.replicate 128 0 ++ (be32 3 ++ ([7, 8, 9])))))))))))))) s ∧
      s.last_hint = [7, 8, 9]) ∧
    (∃ s, RunsTo (MultiThreaded64V3.decode MultiThreaded64V3.default)
        ([0, 0, 0, 0] ++ (List.replicate 32 0 ++ ([0, 0, 0, 0, 0, 0, 0, 0] ++ ([0, 0, 0, 0, 0, 0, 0, 0] ++ ([0] ++ ([0, 0, 0, 0, 0, 0, 0, 0] ++ ([0, 0, 0, 0, 0, 0, 0, 0] ++ ([0] ++ ([0] ++ ([0, 0, 0, 0, 0, 0, 0, 0] ++ ([0, 0, 0, 0, 0, 0, 0, 0] ++ ([0] ++ ([0, 0, 0, 0, 0, 0, 0, 0] ++ (be64 ([] : List (List Nat × ThreadState64)).length ++ ((([] : List (List Nat × ThreadState64)).map Prod.fst).flatten ++ (be64 ([] : List (List Nat × ThreadState64)).length ++ ((([] : List (List Nat × ThreadState64)).map Prod.fst).flatten ++ (be32 0 ++ (([] : List Nat)))))))))))))))))))) s ∧
      s.last_hint = []) := by
  constructor
  · have hmem : RunsTo (Memory.decode SingleThreadedFPVMState.default.memory)
        [0, 0, 0, 0] Memory.default :=
      @runsTo_memory_decode Memory.default [] (by simp) (by norm_num)
    exact c8_hint_blob_exact.1 [0, 0, 0, 0] (List.replicate 32 0) [0, 0, 0, 0]
      [0, 0, 0, 0] [0, 0, 0, 0] [0, 0, 0, 0] [0, 0, 0, 0] [0, 0, 0, 0]
      [0, 0, 0, 0, 0, 0, 0, 0] (List.replicate 128 0) [7, 8, 9] 0 0 3
      Memory.default hmem (by rw [List.length_replicate]) rfl rfl rfl rfl rfl rfl
      rfl (by rw [List.length_replicate]) rfl (by norm_num)
  · have hmem : RunsTo (Memory.decode MultiThreaded64V3.default.memory)
        [0, 0, 0, 0] Memory.default :=
      @runsTo_memory_decode Memory.default [] (by simp) (by norm_num)
    have hpe : ∀ p ∈ ([] : List (List Nat × ThreadState64)),
        RunsTo ThreadState64.decode p.1 p.2 := by
      intro p hp
      simp at hp
    exact c8_hint_blob_exact.2 [0, 0, 0, 0] (List.replicate 32 0)
      [0, 0, 0, 0, 0, 0, 0, 0] [0, 0, 0, 0, 0, 0, 0, 0] [0, 0, 0, 0, 0, 0, 0, 0]
      [0, 0, 0, 0, 0, 0, 0, 0] [0, 0, 0, 0, 0, 0, 0, 0] [0, 0, 0, 0, 0, 0, 0, 0]
      [0, 0, 0, 0, 0, 0, 0, 0] [] 0 0 0 0 0 Memory.default [] [] hmem
      (by rw [List.length_replicate]) rfl rfl rfl rfl rfl rfl rfl (by norm_num)
      (by norm_num) hpe hpe rfl (by norm_num)

set_option maxHeartbeats 800000 in
/-- C4: the fixture buffer decodes successfully to exactly the expected
single-threaded state, every field equal. -/
theorem c4_fixture_decodes :
    VersionedState.try_from testData =
      TFResult.ok ⟨2, StatePayload.single correctState⟩ := by
  have hpm : ∀ p ∈ pairsM, p.1 < 4294967296 ∧ p.2.length = 4096 := by
    intro p hp
    simp only [pairsM, List.mem_cons, List.not_mem_nil, or_false] at hp
    rcases hp with h | h <;> subst h
    · exact ⟨by norm_num, by rw [List.length_replicate]⟩
    · refine ⟨by norm_num, ?_⟩
      rw [List.length_append, List.length_replicate]
      decide
  have hmem : RunsTo (Memory.decode SingleThreadedFPVMState.default.memory)
      ([0, 0, 0, 2] ++
        (([0, 0, 0, 5] ++ List.replicate 4096 0) ++
         (([0, 0, 0, 123] ++ ([0, 0, 1] ++ List.replicate 4093 0)) ++ [])))
      ⟨[(5, List.replicate 4096 0), (123, [0, 0, 1] ++ List.replicate 4093 0)]⟩ :=
    @runsTo_memory_decode SingleThreadedFPVMState.default.memory pairsM hpm
      (by decide)
  have hsingle : RunsTo
      (SingleThreadedFPVMState.decode SingleThreadedFPVMState.default)
      (([0, 0, 0, 2] ++
        (([0, 0, 0, 5] ++ List.replicate 4096 0) ++
         (([0, 0, 0, 123] ++ ([0, 0, 1] ++ List.replicate 4093 0)) ++ []))) ++
       (([255] ++ List.replicate 31 0) ++
        ([0, 0, 0, 5] ++
         ([0, 0, 0, 255] ++
          ([0, 0, 1, 3] ++
           ([0, 0, 190, 239] ++
            ([0, 0, 186, 190] ++
             ([0, 192, 255, 238] ++
              ([1] ++
               ([1] ++
                ([0, 0, 0, 0, 222, 173, 190, 239] ++
                 (regsBytes ++ (be32 5 ++ [1, 2, 3, 4, 5])))))))))))))
      correctState :=
    @runsTo_single_parts SingleThreadedFPVMState.default _ _ _ _ _ _ _ _ _ _ _ _
      _ _ _ hmem
      (by rw [List.length_append, List.length_replicate]; decide) rfl rfl rfl rfl
      rfl rfl rfl (by simp only [regsBytes, List.length_append,
        List.length_replicate, List.length_cons, List.length_nil]) rfl
      (by norm_num)
  have hdec : RunsTo VersionedState.decode testData
      ⟨2, StatePayload.single correctState⟩ := by
    unfold VersionedState.decode
    exact runsTo_bind (runsTo_readU8 2) (runsTo_bind_pure hsingle)
  have h0 := hdec []
  rw [List.append_nil] at h0
  unfold VersionedState.try_from
  rw [h0]

end OpfpUtil
